import Mathlib

/-!
# Verification of the `loquet` latch package

Shallow embedding of the Go package `loquet` (file `loquet.go`).

The central type, `Chan[T]`, is a mutex-guarded, value-carrying,
idempotent close latch.  All operations run under the single internal
mutex, so each public method is an atomic state transformer; we embed
each method as a pure function on an explicit state record.

Modelling conventions:
* a Go `*T` payload pointer becomes `Option α` (`none` = nil pointer);
* the internal `whenClosed chan struct{}` is observable only through
  whether the currently installed channel has been closed, so it is
  embedded as the boolean field `fired`; `Open`/`ReOpen` install a fresh
  unfired channel (`fired := false`) and `close(f.whenClosed)` sets
  `fired := true`;
* Go `panic` (including runtime index-out-of-range panics) is modelled
  as `none` in an `Option`-returning embedding;
* the Go `int` fields `version` (only ever incremented, starting at 0)
  and the length comparisons use `Nat`; the `retain` configuration
  value can be negative at the API boundary, so it is an `Int`.
-/

namespace LoquetPkg

/-- `VersionVal[T]`: a history entry pairing a version number with the
payload pointer stored at that version (`Version int; Val *T`). -/
structure VersionVal (α : Type) where
  Version : Nat
  Val : Option α
  deriving Repr, DecidableEq

/-- State of a `loquet.Chan[T]`: the fields guarded by `mut`.
`fired` records whether the currently installed `whenClosed` channel has
been closed. -/
structure Chan (α : Type) where
  fired : Bool
  closeVal : Option α
  isClosed : Bool
  retain : Int
  version : Nat
  past : List (VersionVal α)
  deriving Repr, DecidableEq

namespace Chan

/-- The history-recording block that `Close`/`Set`/`SetIfOpen`/`ReOpen`/
`SetAndClose` all repeat verbatim after `f.closeVal = closeVal; f.version++`:

    if f.retain > 0 {
        f.past = append(f.past, VersionVal[T]{Version: f.version, Val: closeVal})
        if len(f.past) > f.retain {
            f.past = f.past[1:] // discard the oldest
        }
    }

`bump` performs the payload store, the version increment and this block. -/
def bump (f : Chan α) (closeVal : Option α) : Chan α :=
  let ver := f.version + 1
  let past :=
    if 0 < f.retain then
      let p := f.past ++ [⟨ver, closeVal⟩]
      if f.retain < (p.length : Int) then p.drop 1 else p
    else f.past
  { f with closeVal := closeVal, version := ver, past := past }

/-- Result of the close-family methods: `ok` embeds a `nil` Go error,
`alreadyClosed` embeds `ErrAlreadyClosed`. -/
inductive CloseResult where
  | ok
  | alreadyClosed
  deriving Repr, DecidableEq

/-- `func (f *Chan[T]) Close(closeVal *T) error`.  Returns the Go error
together with the post-state. -/
def Close (f : Chan α) (closeVal : Option α) : CloseResult × Chan α :=
  if f.isClosed then (.alreadyClosed, f)
  else
    let f1 := { f with isClosed := true }
    let f2 :=
      match closeVal with
      | none => f1
      | some _ => f1.bump closeVal
    (.ok, { f2 with fired := true })

/-- `func (f *Chan[T]) Set(closeVal *T) (old *T)`. -/
def Set (f : Chan α) (closeVal : Option α) : Option α × Chan α :=
  (f.closeVal, f.bump closeVal)

/-- `func (f *Chan[T]) SetIfOpen(closeVal *T) (old *T)`. -/
def SetIfOpen (f : Chan α) (closeVal : Option α) : Option α × Chan α :=
  (f.closeVal, if f.isClosed then f else f.bump closeVal)

/-- `func (f *Chan[T]) Read() (closeVal *T, isClosed bool)`. -/
def Read (f : Chan α) : Option α × Bool :=
  (f.closeVal, f.isClosed)

/-- `func (f *Chan[T]) ReadVersion() (closeVal *T, isClosed bool, version int)`. -/
def ReadVersion (f : Chan α) : Option α × Bool × Nat :=
  (f.closeVal, f.isClosed, f.version)

/-- Go's built-in `copy(d, src)`: overwrites the first
`min (len d) (len src)` elements of `d` with the corresponding prefix of
`src` and leaves the rest of `d` unchanged. -/
def goCopy (d src : List β) : List β :=
  src.take d.length ++ d.drop src.length

/-- `func (f *Chan[T]) ReadPast(d []VersionVal[T]) (numCopied int)`:
`numCopied = copy(d, f.past)`.  We return both the count and the
post-call contents of the destination slice `d`. -/
def ReadPast (f : Chan α) (d : List (VersionVal α)) : Nat × List (VersionVal α) :=
  (min d.length f.past.length, goCopy d f.past)

/-- `func (f *Chan[T]) ReOpen(closeVal *T)`: unconditional `bump`, then,
only when closed, clear `isClosed` and install a fresh (unfired)
`whenClosed` channel. -/
def ReOpen (f : Chan α) (closeVal : Option α) : Chan α :=
  let f1 := f.bump closeVal
  if f1.isClosed then { f1 with isClosed := false, fired := false } else f1

/-- `func (f *Chan[T]) Open()`: when closed, clear `isClosed` and install
a fresh (unfired) `whenClosed` channel; no-op when open. -/
def Open (f : Chan α) : Chan α :=
  if f.isClosed then { f with isClosed := false, fired := false } else f

/-- `func (f *Chan[T]) SetAndClose(closeVal *T) error`. -/
def SetAndClose (f : Chan α) (closeVal : Option α) : CloseResult × Chan α :=
  if f.isClosed then (.alreadyClosed, f)
  else (.ok, { f.bump closeVal with isClosed := true, fired := true })

/-- `func (f *Chan[T]) WhenClosed() <-chan struct{}` returns the current
channel; observationally, whether that handle is already closed. -/
def WhenClosed (f : Chan α) : Bool :=
  f.fired

end Chan

/-- The record literal `NewChan` builds before the `retain` branches:
fresh unfired channel, the supplied `closeVal`, open, version 0, empty
history. -/
def Chan.mkInit (closeVal : Option α) (retainVersions : Int) : Chan α :=
  { fired := false, closeVal := closeVal, isClosed := false,
    retain := retainVersions, version := 0, past := [] }

/-- `func NewChan[T any](closeVal *T, retainVersions int) (f *Chan[T])`.

    f = &Chan[T]{ ... }
    if f.retain > 0 {
        f.past = make([]VersionVal[T], 0, f.retain+1)
        f.past[0] = VersionVal[T]{Version: f.version, Val: closeVal}
    } else if f.retain < 0 {
        panic("retainVersions cannot be negative")
    }

For `retain > 0` the code assigns `f.past[0]` on a slice whose *length*
is 0 (`make` was given length 0, capacity `retain+1`), which is an
index-out-of-range runtime panic; for `retain < 0` it panics
explicitly.  Both panics are modelled as `none`. -/
def NewChan (closeVal : Option α) (retainVersions : Int) : Option (Chan α) :=
  if 0 < retainVersions then
    none
  else if retainVersions < 0 then
    none
  else
    some (Chan.mkInit closeVal retainVersions)

/-- One call of the public `Chan` API, for quantifying over call
sequences.  Read-only calls are included so that sequences range over
the whole API. -/
inductive Op (α : Type) where
  | Close (v : Option α)
  | SetAndClose (v : Option α)
  | Set (v : Option α)
  | SetIfOpen (v : Option α)
  | ReOpen (v : Option α)
  | Open
  | Read
  | ReadVersion
  | ReadPast (d : List (VersionVal α))
  | WhenClosed
  deriving Repr

/-- The state after one API call (return values discarded). -/
def Chan.step (f : Chan α) : Op α → Chan α
  | .Close v => (f.Close v).2
  | .SetAndClose v => (f.SetAndClose v).2
  | .Set v => (f.Set v).2
  | .SetIfOpen v => (f.SetIfOpen v).2
  | .ReOpen v => f.ReOpen v
  | .Open => f.Open
  | .Read => f
  | .ReadVersion => f
  | .ReadPast _ => f
  | .WhenClosed => f

/-- The state after a sequence of API calls. -/
def Chan.steps (f : Chan α) : List (Op α) → Chan α
  | [] => f
  | op :: ops => (f.step op).steps ops

/-! ### The lazy-channel `Loquet` variant

The second `Loquet[T]` in the file allocates no channel in
`NewLoquet`; `WhenClosed` allocates it lazily (`if f.ch == nil { f.ch =
make(chan struct{}) }`).  `chAllocated` embeds `f.ch != nil` and
`chFired` whether the allocated channel has been closed.  `Close`
reaches `close(f.ch)` whenever the latch is open; closing a nil channel
panics in Go, modelled as `none`. -/

structure Loquet (α : Type) where
  chAllocated : Bool
  chFired : Bool
  closeVal : Option α
  isClosed : Bool
  deriving Repr, DecidableEq

/-- `func NewLoquet[T any](closeVal *T) *Loquet[T]` (lazy variant): only
`closeVal` is set; `ch` is left nil. -/
def NewLoquet (closeVal : Option α) : Loquet α :=
  { chAllocated := false, chFired := false, closeVal := closeVal,
    isClosed := false }

/-- `func (f *Loquet[T]) Close(closeVal *T)` (lazy variant): no-op when
already closed; otherwise sets `isClosed`, stores a non-nil `closeVal`,
then executes `close(f.ch)` — a panic (`none`) when `ch` is nil. -/
def Loquet.Close (f : Loquet α) (closeVal : Option α) : Option (Loquet α) :=
  if f.isClosed then some f
  else
    let f1 := { f with isClosed := true }
    let f2 :=
      match closeVal with
      | none => f1
      | some _ => { f1 with closeVal := closeVal }
    if f.chAllocated then some { f2 with chFired := true } else none

/-- `func (f *Loquet[T]) Set(closeVal *T) (old *T)` (lazy variant). -/
def Loquet.Set (f : Loquet α) (closeVal : Option α) : Option α × Loquet α :=
  (f.closeVal, { f with closeVal := closeVal })

/-- `func (f *Loquet[T]) SetIfOpen(closeVal *T) (old *T)` (lazy variant). -/
def Loquet.SetIfOpen (f : Loquet α) (closeVal : Option α) :
    Option α × Loquet α :=
  (f.closeVal, if f.isClosed then f else { f with closeVal := closeVal })

/-- `func (f *Loquet[T]) Read() (closeVal *T, isClosed bool)` (lazy variant). -/
def Loquet.Read (f : Loquet α) : Option α × Bool :=
  (f.closeVal, f.isClosed)

/-- `func (f *Loquet[T]) WhenClosed() <-chan struct{}` (lazy variant):
allocates `ch` when it is still nil, then returns it. -/
def Loquet.WhenClosed (f : Loquet α) : Loquet α :=
  if f.chAllocated then f else { f with chAllocated := true }

/-- The lazy-variant API calls that neither close the latch nor touch
the channel allocation: everything a client can run between
`NewLoquet` and the first `Close` other than `WhenClosed`. -/
inductive LoquetOp (α : Type) where
  | Set (v : Option α)
  | SetIfOpen (v : Option α)
  | Read
  deriving Repr

/-- The state after one such call (return values discarded). -/
def Loquet.lstep (f : Loquet α) : LoquetOp α → Loquet α
  | .Set v => (f.Set v).2
  | .SetIfOpen v => (f.SetIfOpen v).2
  | .Read => f

/-- The state after a sequence of such calls. -/
def Loquet.lsteps (f : Loquet α) : List (LoquetOp α) → Loquet α
  | [] => f
  | op :: ops => (f.lstep op).lsteps ops

/-! ### Basic facts about `bump` -/

@[simp] lemma Chan.bump_fired (f : Chan α) (v : Option α) :
    (f.bump v).fired = f.fired := rfl

@[simp] lemma Chan.bump_isClosed (f : Chan α) (v : Option α) :
    (f.bump v).isClosed = f.isClosed := rfl

@[simp] lemma Chan.bump_retain (f : Chan α) (v : Option α) :
    (f.bump v).retain = f.retain := rfl

@[simp] lemma Chan.bump_version (f : Chan α) (v : Option α) :
    (f.bump v).version = f.version + 1 := rfl

@[simp] lemma Chan.bump_closeVal (f : Chan α) (v : Option α) :
    (f.bump v).closeVal = v := rfl

/-- The history-recording block keeps the history within the retention
bound: if `past` was within bound before a `bump`, it still is after. -/
lemma Chan.bump_past_length_le (f : Chan α) (v : Option α)
    (h : (f.past.length : Int) ≤ f.retain) :
    ((f.bump v).past.length : Int) ≤ f.retain := by
  simp only [bump]
  split_ifs with hr hl
  · simp only [List.length_drop, List.length_append, List.length_cons,
      List.length_nil]
    omega
  · simp only [List.length_append, List.length_cons, List.length_nil] at hl ⊢
    omega
  · exact h

/-- With retention enabled, the most recent history entry after a `bump`
is the freshly recorded `(new version, new payload)` pair. -/
lemma Chan.bump_past_getLast (f : Chan α) (v : Option α)
    (h : 0 < f.retain) :
    (f.bump v).past.getLast? = some ⟨f.version + 1, v⟩ := by
  simp only [bump, if_pos h]
  split_ifs with hl
  · have hlen : 1 ≤ f.past.length := by
      simp only [List.length_append, List.length_cons, List.length_nil] at hl
      omega
    rw [List.drop_append_of_le_length hlen, List.getLast?_concat]
  · exact List.getLast?_concat _

/-! ### Construction -/

/-- C1.  The claim states that `NewChan(p, r)` with `r > 0` returns a
usable latch whose history is seeded with `(version 0, p)`.  It does
not: the constructor makes `past` with *length* 0 (only the capacity is
`retain+1`) and then assigns `f.past[0]`, an index-out-of-range panic,
so construction with any positive retention dies instead of returning a
latch.  This theorem records that the model of the code yields `none`
(panic) for every positive retention. -/
theorem NewChan_positive_retention_panics (p : Option α) (r : Int)
    (h : 0 < r) : NewChan p r = none := by
  simp [NewChan, h]

/-- Witness for `NewChan_positive_retention_panics` at `p = some 5`,
`r = 1`. -/
theorem NewChan_positive_retention_panics_witness :
    (0 : Int) < 1 ∧ NewChan (α := Nat) (some 5) 1 = none :=
  ⟨by decide, NewChan_positive_retention_panics (some 5) 1 (by decide)⟩

/-- C6.  The claimed history invariants quantify over latches created
with retention `R > 0`, but no such latch exists: `NewChan` panics
(index out of range on the zero-length `past` slice) for every positive
retention, here evaluated at retention 2.  (The mutation operations
themselves do maintain the bounded FIFO discipline; see
`Chan.bump_past_length_le` and `Chan.bump_past_getLast` below.) -/
theorem NewChan_retention_two_panics :
    NewChan (α := Nat) (some 3) 2 = none := rfl

/-- C8.  Negative retention is rejected fatally at construction:
`NewChan` panics (modelled as `none`) and no latch is produced. -/
theorem NewChan_negative_retention_panics (p : Option α) (r : Int)
    (h : r < 0) : NewChan p r = none := by
  have h0 : ¬(0 : Int) < r := by omega
  simp [NewChan, h, h0]

/-- Witness for `NewChan_negative_retention_panics` at `r = -1`. -/
theorem NewChan_negative_retention_panics_witness :
    (-1 : Int) < 0 ∧ NewChan (α := Nat) (some 0) (-1) = none :=
  ⟨by decide, NewChan_negative_retention_panics (some 0) (-1) (by decide)⟩

/-! ### Close on an already-closed latch -/

/-- C2.  `Close` on an already-closed latch returns `ErrAlreadyClosed`
and the entire state — payload, closed flag, version, history and the
installed `whenClosed` channel — is exactly what it was before the
call; in particular a second close with a different payload can never
disturb the payload stored by the first successful close. -/
theorem Close_already_closed (f : Chan α) (v : Option α)
    (h : f.isClosed = true) :
    f.Close v = (Chan.CloseResult.alreadyClosed, f) := by
  simp [Chan.Close, h]

/-- Witness for `Close_already_closed`: a concrete closed latch holding
payload `some 5`, hit with `Close (some 9)`. -/
theorem Close_already_closed_witness :
    (⟨true, some 5, true, 0, 1, []⟩ : Chan Nat).isClosed = true ∧
      Chan.Close (⟨true, some 5, true, 0, 1, []⟩ : Chan Nat) (some 9)
        = (Chan.CloseResult.alreadyClosed, ⟨true, some 5, true, 0, 1, []⟩) :=
  ⟨rfl, Close_already_closed _ _ rfl⟩

/-! ### Create / Read / Close round trip -/

/-- C3.  `NewChan X 0` succeeds and yields the initial state; `Read`
before any close returns `(X, false)`; after a first `Close nil` the
payload is preserved and `Read` returns `(X, true)`; after a first
`Close (some y)` on a fresh latch, `Read` returns `(some y, true)`. -/
theorem create_read_close_roundtrip (X : Option α) (y : α) :
    NewChan X 0 = some (Chan.mkInit X 0) ∧
      (Chan.mkInit X 0).Read = (X, false) ∧
      ((Chan.mkInit X 0).Close none).2.Read = (X, true) ∧
      ((Chan.mkInit X 0).Close (some y)).2.Read = (some y, true) := by
  refine ⟨rfl, rfl, ?_, ?_⟩ <;>
    simp [Chan.mkInit, Chan.Close, Chan.Read, Chan.bump]

/-! ### ReadPast -/

/-- Truncating at `min n (l.length)` is the same as truncating at `n`. -/
lemma take_min_length (l : List β) (n : Nat) :
    l.take (min n l.length) = l.take n := by
  rcases le_total n l.length with hc | hc
  · rw [min_eq_left hc]
  · rw [min_eq_right hc, List.take_length, List.take_of_length_le hc]

/-- C10.  `ReadPast d` returns `numCopied = min (len d) (len past)`;
the first `numCopied` entries of `d` afterwards are the *oldest*
`numCopied` history entries (the ones starting at index 0), and the
rest of `d` is untouched.  In particular, when `d` is shorter than the
retained history, the copied data is `past.take (len d)`: the most
recent entries — including the one recording the current payload — are
the ones omitted, not the oldest. -/
theorem ReadPast_copies_oldest_entries (f : Chan α) (d : List (VersionVal α)) :
    (f.ReadPast d).1 = min d.length f.past.length ∧
      (f.ReadPast d).2.take (min d.length f.past.length)
        = f.past.take (min d.length f.past.length) ∧
      (f.ReadPast d).2.drop (min d.length f.past.length)
        = d.drop (min d.length f.past.length) ∧
      (f.ReadPast d).2.length = d.length := by
  have ha : (f.past.take d.length).length = min d.length f.past.length :=
    List.length_take _ _
  refine ⟨rfl, ?_, ?_, ?_⟩
  · show (Chan.goCopy d f.past).take _ = _
    rw [Chan.goCopy, ← ha, List.take_left, ha, take_min_length]
  · show (Chan.goCopy d f.past).drop _ = _
    rw [Chan.goCopy, ← ha, List.drop_left, ha]
    rcases le_total f.past.length d.length with hc | hc
    · rw [min_eq_right hc]
    · rw [min_eq_left hc, List.drop_eq_nil_of_le hc,
        List.drop_eq_nil_of_le le_rfl]
  · simp only [Chan.ReadPast, Chan.goCopy, List.length_append,
      List.length_take, List.length_drop]
    omega

/-! ### The signal fires exactly when the latch is closed -/

/-- Any single API call preserves "the installed `whenClosed` channel is
closed iff `isClosed`". -/
lemma Chan.step_preserves_fired_eq (f : Chan α) (op : Op α)
    (h : f.fired = f.isClosed) :
    (f.step op).fired = (f.step op).isClosed := by
  cases op with
  | Close v =>
    simp only [step, Close]
    split_ifs with hc
    · exact h
    · cases v <;> simp
  | SetAndClose v =>
    simp only [step, SetAndClose]
    split_ifs with hc
    · exact h
    · simp
  | Set v => simpa [step, Set] using h
  | SetIfOpen v =>
    simp only [step, SetIfOpen]
    split_ifs with hc
    · exact h
    · simpa using h
  | ReOpen v =>
    simp only [step, ReOpen]
    split_ifs with hc
    · simp
    · simpa using h
  | Open =>
    simp only [step, Open]
    split_ifs with hc
    · simp
    · exact h
  | Read => exact h
  | ReadVersion => exact h
  | ReadPast d => exact h
  | WhenClosed => exact h

/-- The invariant propagates along any call sequence. -/
lemma Chan.steps_preserves_fired_eq (ops : List (Op α)) :
    ∀ f : Chan α, f.fired = f.isClosed →
      (f.steps ops).fired = (f.steps ops).isClosed := by
  induction ops with
  | nil => exact fun f h => h
  | cons op ops ih =>
      exact fun f h => ih (f.step op) (Chan.step_preserves_fired_eq f op h)

/-- C4.  In every state reachable from construction by any sequence of
API calls, the currently installed `whenClosed` channel has been closed
iff the `isClosed` flag is set: the channel handle returned by
`WhenClosed` reports fired exactly when `Read` reports closed.  (The
only constructible initial state is `Chan.mkInit X 0`, since `NewChan`
panics for every nonzero retention; it starts with an unfired channel
and `isClosed = false`.)  Consequently the installed channel is closed
at most once per open episode — `Close`/`SetAndClose` fire it only from
an unfired-and-open state — and once a waiter sees the signal fired, a
`Read` in the same open episode returns `closed = true`. -/
theorem signal_fired_iff_closed (X : Option α) (ops : List (Op α)) :
    ((Chan.mkInit X 0).steps ops).WhenClosed
      = (((Chan.mkInit X 0).steps ops).Read).2 :=
  Chan.steps_preserves_fired_eq ops (Chan.mkInit X 0) rfl

/-! ### Version monotonicity -/

/-- No API call ever decreases the version counter. -/
lemma Chan.step_version_mono (f : Chan α) (op : Op α) :
    f.version ≤ (f.step op).version := by
  cases op with
  | Close v =>
    simp only [step, Close]
    split_ifs with hc
    · exact le_rfl
    · cases v <;> simp
  | SetAndClose v =>
    simp only [step, SetAndClose]
    split_ifs with hc
    · exact le_rfl
    · simp
  | Set v => simp [step, Set]
  | SetIfOpen v =>
    simp only [step, SetIfOpen]
    split_ifs with hc
    · exact le_rfl
    · simp
  | ReOpen v =>
    simp only [step, ReOpen]
    split_ifs with hc <;> simp
  | Open =>
    simp only [step, Open]
    split_ifs with hc <;> exact le_rfl
  | Read => exact le_rfl
  | ReadVersion => exact le_rfl
  | ReadPast d => exact le_rfl
  | WhenClosed => exact le_rfl

/-- C5.  Every payload mutation strictly increases the version, and no
API call ever decreases it, in any state.  `Set` and `ReOpen` bump the
version unconditionally (the code increments with no openness check, so
this holds on closed latches too); `SetIfOpen`, `Close` with a non-nil
payload and `SetAndClose` mutate — and bump — exactly when the latch is
open, stated here over `{ f with isClosed := false }`, which ranges
over every open latch as `f` ranges over all states; and the final
conjunct gives the unconditional guarantee that no operation of the
API ever decreases the version, open or closed. -/
theorem version_strictly_increases (f : Chan α) (v : Option α) (x : α)
    (op : Op α) :
    f.version < (f.Set v).2.version ∧
      f.version < (f.ReOpen v).version ∧
      f.version
        < (({ f with isClosed := false } : Chan α).SetIfOpen v).2.version ∧
      f.version
        < (({ f with isClosed := false } : Chan α).Close (some x)).2.version ∧
      f.version
        < (({ f with isClosed := false } : Chan α).SetAndClose v).2.version ∧
      f.version ≤ (f.step op).version := by
  refine ⟨?_, ?_, ?_, ?_, ?_, Chan.step_version_mono f op⟩
  · simp [Chan.Set]
  · simp only [Chan.ReOpen]
    split_ifs with hc <;> simp
  · simp [Chan.SetIfOpen]
  · simp [Chan.Close]
  · simp [Chan.SetAndClose]

/-- A concrete open latch (retention 2, version 4) used by witnesses. -/
def sampleOpen : Chan Nat :=
  ⟨false, some 1, false, 2, 4, [⟨4, some 1⟩]⟩

/-! ### SetAndClose -/

/-- C7.  On an open latch, `SetAndClose v` returns success and leaves a
state in which `Read` yields `(v, true)` (it stores `v` even when `v`
is nil and marks the latch closed), the version is incremented, the
signal has fired, and — whenever retention is enabled (`0 < r`, the
`{ f with retain := r }` instance) — the freshly recorded
`(new version, v)` pair is the most recent history entry.  On an
already-closed latch (the `{ f with isClosed := true }` instance, which
ranges over every closed latch), it returns `ErrAlreadyClosed` and the
state is exactly unchanged. -/
theorem SetAndClose_spec (f : Chan α) (v : Option α) (r : Int)
    (h : f.isClosed = false) (hr : 0 < r) :
    (f.SetAndClose v).1 = Chan.CloseResult.ok ∧
      (f.SetAndClose v).2.Read = (v, true) ∧
      (f.SetAndClose v).2.version = f.version + 1 ∧
      (f.SetAndClose v).2.WhenClosed = true ∧
      (({ f with retain := r } : Chan α).SetAndClose v).2.past.getLast?
        = some ⟨f.version + 1, v⟩ ∧
      ({ f with isClosed := true } : Chan α).SetAndClose v
        = (Chan.CloseResult.alreadyClosed,
           ({ f with isClosed := true } : Chan α)) := by
  refine ⟨?_, ?_, ?_, ?_, ?_, ?_⟩
  · simp [Chan.SetAndClose, h]
  · simp [Chan.SetAndClose, Chan.Read, h]
  · simp [Chan.SetAndClose, h]
  · simp [Chan.SetAndClose, Chan.WhenClosed, h]
  · simp only [Chan.SetAndClose, h, if_neg Bool.false_ne_true]
    exact Chan.bump_past_getLast { f with retain := r } v hr
  · simp [Chan.SetAndClose]

/-- Witness for `SetAndClose_spec` on `sampleOpen` with a nil payload
and retention 1. -/
theorem SetAndClose_spec_witness :
    sampleOpen.isClosed = false ∧ (0 : Int) < 1 ∧
      ((sampleOpen.SetAndClose none).1 = Chan.CloseResult.ok ∧
        (sampleOpen.SetAndClose none).2.Read = (none, true) ∧
        (sampleOpen.SetAndClose none).2.version = sampleOpen.version + 1 ∧
        (sampleOpen.SetAndClose none).2.WhenClosed = true ∧
        (({ sampleOpen with retain := 1 } : Chan Nat).SetAndClose
            none).2.past.getLast? = some ⟨sampleOpen.version + 1, none⟩ ∧
        ({ sampleOpen with isClosed := true } : Chan Nat).SetAndClose none
          = (Chan.CloseResult.alreadyClosed,
             ({ sampleOpen with isClosed := true } : Chan Nat))) :=
  ⟨rfl, by decide, SetAndClose_spec sampleOpen none 1 rfl (by decide)⟩

/-! ### The lazy Loquet variant panics on Close before WhenClosed -/

/-- The non-channel calls (`Set`, `SetIfOpen`, `Read`) never allocate
the lazy channel and never close the latch. -/
lemma Loquet.lsteps_preserves (ops : List (LoquetOp α)) :
    ∀ f : Loquet α,
      (f.lsteps ops).chAllocated = f.chAllocated ∧
        (f.lsteps ops).isClosed = f.isClosed := by
  induction ops with
  | nil => exact fun f => ⟨rfl, rfl⟩
  | cons op ops ih =>
      intro f
      obtain ⟨hA, hC⟩ := ih (f.lstep op)
      have hstep : (f.lstep op).chAllocated = f.chAllocated ∧
          (f.lstep op).isClosed = f.isClosed := by
        cases op with
        | Set v => exact ⟨rfl, rfl⟩
        | SetIfOpen v =>
            simp only [lstep, SetIfOpen]
            split_ifs <;> exact ⟨rfl, rfl⟩
        | Read => exact ⟨rfl, rfl⟩
      exact ⟨hA.trans hstep.1, hC.trans hstep.2⟩

/-- C9.  For the lazy-channel `Loquet` variant: after `NewLoquet` and
any sequence of `Set`/`SetIfOpen`/`Read` calls, the internal channel is
still nil, so `Close` executes `close(nil)` and panics (`none`); if
`WhenClosed` has been called first (which allocates the channel),
`Close` succeeds. -/
theorem lazy_Close_panics_before_WhenClosed (v w : Option α)
    (ops : List (LoquetOp α)) :
    ((NewLoquet v).lsteps ops).Close w = none ∧
      ((((NewLoquet v).lsteps ops).WhenClosed).Close w).isSome = true := by
  obtain ⟨hA, hC⟩ := Loquet.lsteps_preserves ops (NewLoquet v)
  have hA0 : ((NewLoquet v).lsteps ops).chAllocated = false := hA
  have hC0 : ((NewLoquet v).lsteps ops).isClosed = false := hC
  constructor
  · cases w <;> simp [Loquet.Close, hA0, hC0]
  · cases w <;> simp [Loquet.Close, Loquet.WhenClosed, hA0, hC0]

end LoquetPkg
